import Mathlib

/-!
Verification development for the FederalBillBot bill discovery and
deduplication pipeline.

The Python sources are embedded shallowly: dictionaries become structures,
string primitives act on the underlying character lists, the sqlite layer
(whose module is not among the sources, only its callers) is modelled from
the spec, and stateful code threads its state explicitly.
-/

/-! ## String primitives mirroring the Python ones -/

/-- Characterwise lowercase, mirroring Python `str.lower` on the ASCII data
these sources handle. -/
def pyLower (s : String) : String := String.mk (s.data.map Char.toLower)

/-- Characterwise uppercase, mirroring Python `str.upper` on the ASCII data
these sources handle. -/
def pyUpper (s : String) : String := String.mk (s.data.map Char.toUpper)

/-- Does the character list `s` start with `p`?  (Python `str.startswith`.) -/
def startsWithL : List Char → List Char → Bool
  | _, [] => true
  | [], _ :: _ => false
  | a :: s, b :: p => a == b && startsWithL s p

/-- Does `p` occur contiguously inside `s`?  (Python `p in s` on strings.) -/
def containsSeq (p : List Char) : List Char → Bool
  | [] => p.isEmpty
  | c :: t => startsWithL (c :: t) p || containsSeq p t

/-! ## Data model

`BillData` carries the identity-relevant fields of the bill dictionaries
produced by `extract_bill_data` (src/congress_x/monitor.py) and consumed by
the monitor loop and `XPoster`; all values are strings, as in the JSON. -/

structure BillData where
  billType : String
  billNumber : String
  congress : String
  formattedBillNumber : String
  deriving DecidableEq

/-- The key triple `(congress, number, type)` under which a bill is recorded. -/
def keyTriple (b : BillData) : String × String × String :=
  (b.congress, b.billNumber, b.billType)

/-! ## Duplicate guard / persistent store -/

/-- Modelled from the spec: the sqlite module `new_Legislation_log` is not
among the sources (only its callers are).  Per the spec the Duplicate Guard
is a durable store of previously seen bills whose minimal schema is
`(congress, chamber_type, number) UNIQUE, first_seen_at`; it is modelled as
the list of recorded key triples `(congress, number, type)`, newest first. -/
abbrev SeenStore : Type := List (String × String × String)

/-- Modelled from the spec: `bill_exists(conn, congress, number, type)` from
the missing `new_Legislation_log` module — the guard's `exists` check, a pure
membership test on the recorded keys. -/
def bill_exists (db : SeenStore) (congress billNumber billType : String) : Bool :=
  db.contains (congress, billNumber, billType)

/-- Modelled from the spec: `log_bill_from_data` from the missing
`new_Legislation_log` module — records a `SeenRecord` for the bill's key. -/
def log_bill_from_data (db : SeenStore) (congress billNumber billType : String) : SeenStore :=
  (congress, billNumber, billType) :: db

/-- Embedding of `XPoster.store_in_database` (src/congress_x/x_poster.py, lines 92–141):
read the bill's key fields, first check `bill_exists`; when the bill is
already recorded return `False` and change nothing, otherwise record it via
`log_bill_from_data` and return `True`.  The connection state is passed
explicitly; the result is (returned boolean, store afterwards). -/
def store_in_database (db : SeenStore) (b : BillData) : Bool × SeenStore :=
  if bill_exists db b.congress b.billNumber b.billType then (false, db)
  else (true, log_bill_from_data db b.congress b.billNumber b.billType)

/-! ## Two concurrent callers of `store_in_database`

`store_in_database` issues two separate storage operations: the
`bill_exists` read (on one connection) and the `log_bill_from_data` write
(on another).  Each primitive is atomic at the storage layer; the pair is
not, which the following small-step system makes precise. -/

/-- One caller midway through `store_in_database`: `pc = 0` before the
`bill_exists` read, `pc = 1` between read and write, `pc = 2` returned;
`sawSeen` records what the read observed. -/
structure GuardProc where
  pc : Nat
  sawSeen : Bool
  deriving DecidableEq

/-- One atomic storage operation of a single caller on bill `b`. -/
def procStep (b : BillData) (db : SeenStore) (p : GuardProc) : GuardProc × SeenStore :=
  if p.pc = 0 then ({ pc := 1, sawSeen := bill_exists db b.congress b.billNumber b.billType }, db)
  else if p.pc = 1 then
    if p.sawSeen then ({ p with pc := 2 }, db)
    else ({ p with pc := 2 }, log_bill_from_data db b.congress b.billNumber b.billType)
  else (p, db)

/-- Shared store plus the two callers. -/
structure GuardSys where
  db : SeenStore
  proc1 : GuardProc
  proc2 : GuardProc
  deriving DecidableEq

/-- Scheduler step: `false` advances caller 1, `true` advances caller 2. -/
def guardStep (b : BillData) (s : GuardSys) (i : Bool) : GuardSys :=
  if i then
    let (p, db) := procStep b s.db s.proc2
    { s with proc2 := p, db := db }
  else
    let (p, db) := procStep b s.db s.proc1
    { s with proc1 := p, db := db }

/-- Run both callers of `store_in_database` on bill `b` from the empty store
under the given interleaving. -/
def guardRun (b : BillData) (sched : List Bool) : GuardSys :=
  sched.foldl (guardStep b) ⟨[], ⟨0, false⟩, ⟨0, false⟩⟩

/-- The boolean a finished caller returned, if it finished. -/
def procResult (p : GuardProc) : Option Bool :=
  if p.pc = 2 then some (!p.sawSeen) else none

/-! ## Theorems for C1 and C2 -/

/-- C1: for every bill, calling `store_in_database` twice in sequence on an
initially empty store returns `true` then `false`; the first call inserts
exactly the bill's `SeenRecord` and the second call inserts nothing. -/
theorem store_in_database_twice_from_empty (b : BillData) :
    (store_in_database [] b).1 = true ∧
    (store_in_database [] b).2 = [(b.congress, b.billNumber, b.billType)] ∧
    (store_in_database (store_in_database [] b).2 b).1 = false ∧
    (store_in_database (store_in_database [] b).2 b).2 = (store_in_database [] b).2 := by
  simp [store_in_database, bill_exists, log_bill_from_data, List.contains_cons]

/-- C2 counterexample: at the concrete key `(119, HR, 42)` the interleaving
check₁, check₂, write₁, write₂ of two callers of `store_in_database` makes
both callers return `true`, refuting the claim that two concurrent callers
never both receive `true`. -/
theorem store_in_database_race_counterexample :
    procResult (guardRun ⟨"HR", "42", "119", "HR.42"⟩ [false, true, false, true]).proc1 =
      some true ∧
    procResult (guardRun ⟨"HR", "42", "119", "HR.42"⟩ [false, true, false, true]).proc2 =
      some true ∧
    (guardRun ⟨"HR", "42", "119", "HR.42"⟩ [false, true, false, true]).db =
      [("119", "42", "HR"), ("119", "42", "HR")] := by
  decide

/-- C2 amended: `store_in_database` is a read-then-write pair, not one atomic
transaction.  Serialized callers return `(true, false)`, but the interleaving
that puts both `bill_exists` reads before both `log_bill_from_data` writes
makes both callers return `true` — for every bill. -/
theorem store_in_database_read_then_write_race (b : BillData) :
    (procResult (guardRun b [false, false, true, true]).proc1 = some true ∧
      procResult (guardRun b [false, false, true, true]).proc2 = some false) ∧
    (procResult (guardRun b [false, true, false, true]).proc1 = some true ∧
      procResult (guardRun b [false, true, false, true]).proc2 = some true) := by
  simp [guardRun, guardStep, procStep, procResult, bill_exists, log_bill_from_data,
    List.contains_cons]

/-! ## Discovery scan cycle

`monitor_and_process_bills` (src/congress_x/monitor.py, lines 626–735) is
embedded with the fetched candidate list and the store as explicit inputs:
the selection loop (lines 661–702) reads the store through `bill_exists` and
splits the survivors into house and senate lists, after which the batch is
handed off.  `aggregate_all` is `False` here. -/

/-- Python `all([bill_type, bill_number, congress])` on the fields read at
lines 667–672: all three strings are non-empty (the loop's `bill_type` is
already uppercased there, which does not change emptiness of the model's
stored field because `pyUpper` preserves length). -/
def requiredFieldsPresent (b : BillData) : Bool :=
  !(pyUpper b.billType == "") && !(b.billNumber == "") && !(b.congress == "")

/-- A candidate survives the duplicate-guard check of lines 679–687:
required fields present and `bill_exists` is false for
`(congress, bill_number, bill_type.upper())`. -/
def passesGuard (db : SeenStore) (b : BillData) : Bool :=
  requiredFieldsPresent b && !(bill_exists db b.congress b.billNumber (pyUpper b.billType))

/-- Embedding of `extract_bill_data` (src/congress_x/monitor.py, lines 489–597), restricted
to the identity fields it rewrites: the type is uppercased and the formatted
number becomes `f"{bill_type}.{bill_number}"`. -/
def extract_bill_data (b : BillData) : BillData :=
  { b with
    billType := pyUpper b.billType,
    formattedBillNumber := pyUpper b.billType ++ "." ++ b.billNumber }

/-- The house list collected by the selection loop (types starting with H). -/
def monitor_house_bills (db : SeenStore) (bills : List BillData) : List BillData :=
  (bills.filter fun b =>
    passesGuard db b && startsWithL (pyUpper b.billType).data ['H']).map extract_bill_data

/-- The senate list collected by the selection loop (types starting with S). -/
def monitor_senate_bills (db : SeenStore) (bills : List BillData) : List BillData :=
  (bills.filter fun b =>
    passesGuard db b && startsWithL (pyUpper b.billType).data ['S']).map extract_bill_data

/-- Modelled from the spec: `XPoster.post_bills_as_thread` is called at
monitor.py line 713 but is not among the sources.  Per the spec the handoff
records every batch bill in the Duplicate Guard (each `SeenRecord` is created
on the first successful classification-and-guard pass), done here through the
source's `store_in_database`. -/
def post_bills_as_thread (db : SeenStore) (house senate : List BillData) : SeenStore :=
  (house ++ senate).foldl (fun d b => (store_in_database d b).2) db

/-- One discovery scan cycle: the selection loop followed by the handoff.
Returns the batch handed downstream and the store afterwards. -/
def monitor_and_process_bills (db : SeenStore) (bills : List BillData) :
    List BillData × SeenStore :=
  (monitor_house_bills db bills ++ monitor_senate_bills db bills,
    post_bills_as_thread db (monitor_house_bills db bills) (monitor_senate_bills db bills))

theorem bill_exists_iff_mem (db : SeenStore) (c n t : String) :
    bill_exists db c n t = true ↔ (c, n, t) ∈ db := by
  simp [bill_exists, List.elem_iff]

theorem mem_store_foldl_of_mem (l : List BillData) (db : SeenStore)
    (k : String × String × String) (hk : k ∈ db) :
    k ∈ l.foldl (fun d b => (store_in_database d b).2) db := by
  induction l generalizing db with
  | nil => exact hk
  | cons b l ih =>
      refine ih _ ?_
      by_cases h : bill_exists db b.congress b.billNumber b.billType = true <;>
        simp [store_in_database, h, log_bill_from_data, hk]

theorem keyTriple_mem_store_foldl (l : List BillData) (db : SeenStore)
    (b : BillData) (hb : b ∈ l) :
    keyTriple b ∈ l.foldl (fun d b => (store_in_database d b).2) db := by
  induction l generalizing db with
  | nil => cases hb
  | cons a l ih =>
      rcases List.mem_cons.mp hb with rfl | hb
      · rw [List.foldl_cons]
        refine mem_store_foldl_of_mem _ _ _ ?_
        by_cases h : bill_exists db b.congress b.billNumber b.billType = true
        · simpa [store_in_database, h, keyTriple] using (bill_exists_iff_mem db _ _ _).mp h
        · simp [store_in_database, h, log_bill_from_data, keyTriple]
      · exact ih _ hb

theorem keyTriple_extract (b : BillData) :
    keyTriple (extract_bill_data b) = (b.congress, b.billNumber, pyUpper b.billType) := rfl

theorem no_chamber_survivor_after_cycle (db : SeenStore) (bills : List BillData)
    (b : BillData) (hb : b ∈ bills)
    (hHS : startsWithL (pyUpper b.billType).data ['H'] = true ∨
      startsWithL (pyUpper b.billType).data ['S'] = true)
    (hG : passesGuard (monitor_and_process_bills db bills).2 b = true) : False := by
  have hreq : requiredFieldsPresent b = true := by
    simp [passesGuard] at hG
    exact hG.1
  have hnot : bill_exists (monitor_and_process_bills db bills).2
      b.congress b.billNumber (pyUpper b.billType) = false := by
    simp [passesGuard] at hG
    simpa using hG.2
  have hmem : (b.congress, b.billNumber, pyUpper b.billType) ∈
      (monitor_and_process_bills db bills).2 := by
    by_cases h0 : bill_exists db b.congress b.billNumber (pyUpper b.billType) = true
    · exact mem_store_foldl_of_mem _ _ _ ((bill_exists_iff_mem db _ _ _).mp h0)
    · -- the bill passed the guard in the first cycle, so it was stored then
      have hpass : passesGuard db b = true := by
        simp [passesGuard, hreq, h0]
      have hmem1 : extract_bill_data b ∈
          monitor_house_bills db bills ++ monitor_senate_bills db bills := by
        rcases hHS with hH | hS
        · exact List.mem_append_left _
            (List.mem_map_of_mem _ (List.mem_filter.mpr ⟨hb, by simp [hpass, hH]⟩))
        · exact List.mem_append_right _
            (List.mem_map_of_mem _ (List.mem_filter.mpr ⟨hb, by simp [hpass, hS]⟩))
      have := keyTriple_mem_store_foldl
        (monitor_house_bills db bills ++ monitor_senate_bills db bills) db _ hmem1
      simpa [monitor_and_process_bills, post_bills_as_thread, keyTriple_extract] using this
  rw [← bill_exists_iff_mem] at hmem
  rw [hmem] at hnot
  cases hnot

/-- C7: running a discovery scan cycle twice over the same fetched candidate
list leaves the second run with an empty batch — nothing is emitted
downstream — and the store after the second run is unchanged: zero additional
`SeenRecord`s. -/
theorem monitor_second_cycle_is_empty (bills : List BillData) (db : SeenStore) :
    (monitor_and_process_bills (monitor_and_process_bills db bills).2 bills).1 = [] ∧
    (monitor_and_process_bills (monitor_and_process_bills db bills).2 bills).2 =
      (monitor_and_process_bills db bills).2 := by
  have hH : monitor_house_bills (monitor_and_process_bills db bills).2 bills = [] := by
    rw [monitor_house_bills, List.map_eq_nil_iff, List.filter_eq_nil_iff]
    intro b hb hp
    simp only [Bool.and_eq_true] at hp
    exact no_chamber_survivor_after_cycle db bills b hb (Or.inl hp.2) hp.1
  have hS : monitor_senate_bills (monitor_and_process_bills db bills).2 bills = [] := by
    rw [monitor_senate_bills, List.map_eq_nil_iff, List.filter_eq_nil_iff]
    intro b hb hp
    simp only [Bool.and_eq_true] at hp
    exact no_chamber_survivor_after_cycle db bills b hb (Or.inr hp.2) hp.1
  constructor
  · rw [monitor_and_process_bills, hH, hS]
    rfl
  · rw [monitor_and_process_bills, hH, hS]
    rfl

/-! ## Processing a batch into posts

`XPoster.process_bills_into_posts` — the second, effective definition at
src/congress_x/x_poster.py lines 752–963.  The batch is first deduplicated by
`formatted_bill_number` (lines 768–783); the posting section only sets
`posting_successful` (every posting failure is caught inside it), so it is
parameterized here by whether posting was attempted and whether it succeeded;
afterwards the loop at lines 931–942 stores every deduplicated bill.  The
function returns (processed count, posting success flag, store afterwards). -/

/-- The dedup loop of lines 768–783: keep the first occurrence of each
non-empty `formatted_bill_number`; bills with an empty one are always kept. -/
def pydedupGo (seen : List String) : List BillData → List BillData
  | [] => []
  | b :: rest =>
    if b.formattedBillNumber == "" then b :: pydedupGo seen rest
    else if seen.contains b.formattedBillNumber then pydedupGo seen rest
    else b :: pydedupGo (b.formattedBillNumber :: seen) rest

/-- Deduplicate a batch by `formatted_bill_number`, starting from no seen ids. -/
def pydedup (bills : List BillData) : List BillData := pydedupGo [] bills

/-- Embedding of `XPoster.process_bills_into_posts` (second definition, lines 752–963). -/
def process_bills_into_posts (db : SeenStore) (bills : List BillData)
    (postToX postSucceeds : Bool) : Nat × Bool × SeenStore :=
  ((pydedup bills).length, postToX && postSucceeds,
    (pydedup bills).foldl (fun d b => (store_in_database d b).2) db)

theorem batch_key_not_in_db (db : SeenStore) (bills : List BillData) (c : BillData)
    (hc : c ∈ (monitor_and_process_bills db bills).1) :
    keyTriple c ∉ db := by
  have hfilter : ∀ f : BillData,
      passesGuard db f = true → c = extract_bill_data f → keyTriple c ∉ db := by
    intro f hg hcf
    simp only [passesGuard, Bool.and_eq_true, Bool.not_eq_true'] at hg
    intro hmem
    rw [hcf, keyTriple_extract] at hmem
    rw [(bill_exists_iff_mem db _ _ _).mpr hmem] at hg
    cases hg.2
  rcases List.mem_append.mp hc with h | h
  · obtain ⟨f, hf, hcf⟩ := List.mem_map.mp h
    have hp := (List.mem_filter.mp hf).2
    simp only [Bool.and_eq_true] at hp
    exact hfilter f hp.1 hcf.symm
  · obtain ⟨f, hf, hcf⟩ := List.mem_map.mp h
    have hp := (List.mem_filter.mp hf).2
    simp only [Bool.and_eq_true] at hp
    exact hfilter f hp.1 hcf.symm

/-- C10 counterexample: a batch holding the same type and number under two
different congresses shares one `formatted_bill_number`, so the second bill is
dropped by the dedup step before the storage loop: after
`process_bills_into_posts` returns, the 118th-congress bill was never
submitted to `store_in_database` and its key is absent from the store. -/
theorem process_bills_into_posts_counterexample :
    ((⟨"HR", "1", "118", "HR.1"⟩ : BillData) ∈
      ([⟨"HR", "1", "119", "HR.1"⟩, ⟨"HR", "1", "118", "HR.1"⟩] : List BillData)) ∧
    (process_bills_into_posts []
      [⟨"HR", "1", "119", "HR.1"⟩, ⟨"HR", "1", "118", "HR.1"⟩] true false).2.2 =
      [("119", "1", "HR")] ∧
    ("118", "1", "HR") ∉ (process_bills_into_posts []
      [⟨"HR", "1", "119", "HR.1"⟩, ⟨"HR", "1", "118", "HR.1"⟩] true false).2.2 := by
  decide

/-- C10 amended: every bill that survives the dedup-by-formatted-number step
is submitted to the duplicate-guard store no matter whether posting to X was
attempted or succeeded, and no later discovery cycle run against the
resulting store emits a bill with that key again. -/
theorem process_bills_into_posts_marks_seen (db : SeenStore) (bills : List BillData)
    (postToX postSucceeds : Bool) (b : BillData) (hb : b ∈ pydedup bills) :
    keyTriple b ∈ (process_bills_into_posts db bills postToX postSucceeds).2.2 ∧
    ∀ (fetched : List BillData) (c : BillData),
      c ∈ (monitor_and_process_bills
        (process_bills_into_posts db bills postToX postSucceeds).2.2 fetched).1 →
      keyTriple c ≠ keyTriple b := by
  have h1 : keyTriple b ∈ (process_bills_into_posts db bills postToX postSucceeds).2.2 :=
    keyTriple_mem_store_foldl _ db b hb
  refine ⟨h1, ?_⟩
  intro fetched c hc heq
  exact batch_key_not_in_db _ fetched c hc (heq ▸ h1)

/-- C10 witness: instantiating the amended theorem on a concrete one-bill
batch with posting attempted and failed, the bill's key is in the store. -/
theorem process_bills_into_posts_marks_seen_witness :
    keyTriple ⟨"HR", "7", "119", "HR.7"⟩ ∈
      (process_bills_into_posts [] [⟨"HR", "7", "119", "HR.7"⟩] true false).2.2 :=
  (process_bills_into_posts_marks_seen [] [⟨"HR", "7", "119", "HR.7"⟩] true false
    ⟨"HR", "7", "119", "HR.7"⟩ (by decide)).1

/-! ## Deduplication identity

Two duplicate-detection mechanisms appear in the sources: the database
existence check `bill_exists(conn, congress, bill_number, bill_type)`
(src/congress_x/monitor.py lines 678–687), which compares the three key
components, and the in-memory processed-bills test of
src/congress_x_post_processor/X_congress_monitor_initial_introduced.py
(lines 152–175), which joins them into the string
`f"{congress}-{bill_type}-{bill_number}"` and tests set membership. -/

/-- The in-memory bill id of X_congress_monitor_initial_introduced.py
line 158. -/
def bill_id (congress billType billNumber : String) : String :=
  congress ++ "-" ++ billType ++ "-" ++ billNumber

/-- The eight chamber type codes of the data model. -/
def chamber_codes : List String :=
  ["HR", "S", "HRES", "SRES", "HJRES", "SJRES", "HCONRES", "SCONRES"]

/-- A non-empty all-digit string, as congress numbers and bill numbers are in
the JSON feed (they are decimal renderings of positive integers). -/
def digitsOnly (s : String) : Prop :=
  s.data ≠ [] ∧ ∀ c ∈ s.data, c.isDigit = true

instance (s : String) : Decidable (digitsOnly s) := by
  unfold digitsOnly
  infer_instance

theorem digits_no_hyphen {s : String} (h : digitsOnly s) : '-' ∉ s.data := by
  intro hm
  exact absurd (h.2 '-' hm) (by decide)

theorem chamber_code_no_hyphen {t : String} (h : t ∈ chamber_codes) :
    '-' ∉ t.data := by
  fin_cases h <;> decide

theorem append_hyphen_cancel :
    ∀ (a : List Char) (b r s : List Char), '-' ∉ a → '-' ∉ b →
      a ++ '-' :: r = b ++ '-' :: s → a = b ∧ r = s := by
  intro a
  induction a with
  | nil =>
      intro b r s _ hb h
      cases b with
      | nil =>
          refine ⟨rfl, ?_⟩
          simpa using h
      | cons y ys =>
          exfalso
          have hy : y = '-' := by
            have := congrArg (fun l => List.head? l) h
            simpa using this.symm
          exact hb (hy ▸ List.mem_cons_self _ _)
  | cons x xs ih =>
      intro b r s ha hb h
      cases b with
      | nil =>
          exfalso
          have hx : x = '-' := by
            have := congrArg (fun l => List.head? l) h
            simpa using this
          exact ha (hx ▸ List.mem_cons_self _ _)
      | cons y ys =>
          have hxy : x = y := by
            have := congrArg (fun l => List.head? l) h
            simpa using this
          have htail : xs ++ '-' :: r = ys ++ '-' :: s := by
            have := congrArg List.tail h
            simpa using this
          obtain ⟨h1, h2⟩ := ih ys r s
            (fun hm => ha (List.mem_cons_of_mem _ hm))
            (fun hm => hb (List.mem_cons_of_mem _ hm)) htail
          exact ⟨by rw [hxy, h1], h2⟩

theorem bill_id_data (c t n : String) :
    (bill_id c t n).data = c.data ++ '-' :: (t.data ++ '-' :: n.data) := by
  simp [bill_id, String.data_append]

/-- C3: on well-formed keys — a chamber code for the type and digit strings
for congress and number — both duplicate-detection mechanisms identify two
bills exactly when congress, bill type, and bill number all agree: the
in-memory id strings collide iff the components are equal, and the database
existence check after recording the first key accepts the second key iff the
components are equal. -/
theorem dedup_identity_is_full_key (c1 t1 n1 c2 t2 n2 : String)
    (ht1 : t1 ∈ chamber_codes) (hc1 : digitsOnly c1) (hn1 : digitsOnly n1)
    (ht2 : t2 ∈ chamber_codes) (hc2 : digitsOnly c2) (hn2 : digitsOnly n2) :
    (bill_id c1 t1 n1 = bill_id c2 t2 n2 ↔ (c1 = c2 ∧ t1 = t2 ∧ n1 = n2)) ∧
    (bill_exists (log_bill_from_data [] c1 n1 t1) c2 n2 t2 = true ↔
      (c1 = c2 ∧ t1 = t2 ∧ n1 = n2)) := by
  constructor
  · constructor
    · intro h
      have hd := congrArg String.data h
      rw [bill_id_data, bill_id_data] at hd
      obtain ⟨e1, e2⟩ := append_hyphen_cancel _ _ _ _
        (digits_no_hyphen hc1) (digits_no_hyphen hc2) hd
      obtain ⟨e3, e4⟩ := append_hyphen_cancel _ _ _ _
        (chamber_code_no_hyphen ht1) (chamber_code_no_hyphen ht2) e2
      exact ⟨String.ext e1, String.ext e3, String.ext e4⟩
    · rintro ⟨rfl, rfl, rfl⟩
      rfl
  · simp only [bill_exists, log_bill_from_data, List.contains_cons,
      List.contains_nil, Bool.or_false, beq_iff_eq, Prod.mk.injEq]
    constructor
    · rintro ⟨rfl, rfl, rfl⟩
      exact ⟨rfl, rfl, rfl⟩
    · rintro ⟨rfl, rfl, rfl⟩
      exact ⟨rfl, rfl, rfl⟩

/-- C3 witness: the identity criterion instantiated at two concrete
well-formed keys differing only in congress number — neither mechanism
identifies them. -/
theorem dedup_identity_is_full_key_witness :
    (bill_id "119" "HR" "42" = bill_id "118" "HR" "42" ↔
      ("119" = "118" ∧ ("HR" : String) = "HR" ∧ ("42" : String) = "42")) ∧
    (bill_exists (log_bill_from_data [] "119" "42" "HR") "118" "42" "HR" = true ↔
      ("119" = "118" ∧ ("HR" : String) = "HR" ∧ ("42" : String) = "42")) :=
  dedup_identity_is_full_key "119" "HR" "42" "118" "HR" "42"
    (by decide) (by decide) (by decide) (by decide) (by decide) (by decide)

/-! ## Introduction classifier -/

/-- The latest-action argument of the classifier: its type and text tokens. -/
structure LatestAction where
  type : String
  text : String
  deriving DecidableEq

/-- Does any marker occur (case-insensitively) in the action's type or text? -/
def matchesAny (markers : List String) (a : LatestAction) : Bool :=
  markers.any fun m =>
    containsSeq m.data (pyLower a.type).data || containsSeq m.data (pyLower a.text).data

/-- The "progressed" markers of the spec's rule 2: passed, enacted, signed,
vetoed, failed, rejected, defeated, presented-to-president. -/
def progressed_markers : List String :=
  ["passed", "enacted", "signed", "vetoed", "failed", "rejected", "defeated",
    "presented to president"]

/-- The "introduction-stage" markers of the spec's rule 3 — introduced and
referred-to-committee — matched through their stems so that both the
`IntroReferral` action type and a "Referred to the Committee on ..." text
match. -/
def introduction_markers : List String := ["intro", "referred"]

/-- Modelled from the spec: the Introduction Classifier `is_introduced` of
§4.2 does not appear among the sources; it is defined by the spec's ordered,
first-match-wins rule set: an absent action is not introduced; an action
matching a progressed marker is not introduced; otherwise an action matching
an introduction-stage marker is introduced; every other action is not. -/
def is_introduced : Option LatestAction → Bool
  | none => false
  | some a =>
    if matchesAny progressed_markers a then false
    else if matchesAny introduction_markers a then true
    else false

/-- C4: the classifier applies the ordered rules — absent action false,
progressed marker false (even when an introduction marker also matches),
otherwise introduction marker true, otherwise false — and in particular
`is_introduced(None) = false`,
`is_introduced({type:"Floor", text:"Passed House"}) = false`, and
`is_introduced({type:"IntroReferral", text:"Referred to the Committee on the
Judiciary"}) = true`. -/
theorem is_introduced_ordered_rules :
    is_introduced none = false ∧
    (∀ a, is_introduced (some a) =
      (!matchesAny progressed_markers a && matchesAny introduction_markers a)) ∧
    is_introduced (some ⟨"Floor", "Passed House"⟩) = false ∧
    is_introduced (some ⟨"IntroReferral", "Referred to the Committee on the Judiciary"⟩)
      = true ∧
    is_introduced (some ⟨"Floor", "Introduced and then passed"⟩) = false := by
  refine ⟨rfl, ?_, by decide, by decide, by decide⟩
  intro a
  by_cases h : matchesAny progressed_markers a <;> simp [is_introduced, h]

/-! ## Finding the introduction action

`find_introduction_action` (src/congress_x/monitor.py, lines 404–486) over
the bill's action dictionaries; absent keys default to the empty string, and
the Python `list.sort` by date key is a stable sort, embedded as insertion
sort by the non-strict date order. -/

/-- One action dictionary: `type`, `actionCode`, `actionDate`, `text`. -/
structure ActionRec where
  type : String
  actionCode : String
  actionDate : String
  text : String
  deriving DecidableEq

/-- Date order used by the sort key `x.get("actionDate", "")`: Python string
comparison, i.e. lexicographic on the characters. -/
def dateRel (a b : ActionRec) : Prop := a.actionDate.data ≤ b.actionDate.data

instance : DecidableRel dateRel := fun a b =>
  inferInstanceAs (Decidable (a.actionDate.data ≤ b.actionDate.data))

instance : IsTotal ActionRec dateRel := ⟨fun a b => le_total _ _⟩

instance : IsTrans ActionRec dateRel := ⟨fun _ _ _ h1 h2 => le_trans h1 h2⟩

/-- The sort `actions.sort(key=lambda x: x.get("actionDate", ""))` — stable, by date. -/
def sortByDate (l : List ActionRec) : List ActionRec := List.insertionSort dateRel l

/-- The known introduction codes of lines 419–421. -/
def introduction_codes : List String :=
  ["1000", "10000", "1025", "17000", "Intro-H", "Intro-S"]

/-- Priority 1 of lines 423–427: type `IntroReferral` with a known code. -/
def isPriorityIntro (a : ActionRec) : Bool :=
  a.type == "IntroReferral" && introduction_codes.contains a.actionCode

/-- Priority 1b of lines 429–435: type `Floor` with code `17000`. -/
def isFloorSenateRes (a : ActionRec) : Bool :=
  a.type == "Floor" && a.actionCode == "17000"

/-- Priority 2 of lines 445–450: any `IntroReferral` action. -/
def isIntroReferral (a : ActionRec) : Bool := a.type == "IntroReferral"

/-- The fallback of lines 460–466: type literally `Introduced`/`Introduction`. -/
def isIntroducedType (a : ActionRec) : Bool :=
  a.type == "Introduced" || a.type == "Introduction"

/-- The final-fallback keywords of line 482. -/
def intro_keywords : List String := ["intro", "introduced", "introduction", "refer"]

/-- The final fallback test of lines 477–484: a keyword occurs in the
lowercased type or text. -/
def keywordIntroMatch (a : ActionRec) : Bool :=
  intro_keywords.any fun k =>
    containsSeq k.data (pyLower a.type).data || containsSeq k.data (pyLower a.text).data

/-- Embedding of `find_introduction_action` (lines 404–486). -/
def find_introduction_action (actions : List ActionRec) : Option ActionRec :=
  let priority0 := actions.filter isPriorityIntro
  let priority := if priority0.isEmpty then actions.filter isFloorSenateRes else priority0
  if priority.isEmpty then
    let introRef := actions.filter isIntroReferral
    if introRef.isEmpty then
      let fallback := actions.filter isIntroducedType
      if fallback.isEmpty then
        actions.find? keywordIntroMatch
      else (sortByDate fallback).head?
    else (sortByDate introRef).head?
  else (sortByDate priority).head?

theorem sortByDate_head_min (l : List ActionRec) (hl : l ≠ []) :
    ∃ r, (sortByDate l).head? = some r ∧ r ∈ l ∧
      ∀ a ∈ l, r.actionDate.data ≤ a.actionDate.data := by
  have hperm := List.perm_insertionSort dateRel l
  have hsorted := List.sorted_insertionSort dateRel l
  have hne : sortByDate l ≠ [] := by
    intro h
    rw [sortByDate] at h
    rw [h] at hperm
    exact hl hperm.symm.eq_nil
  obtain ⟨r, t, ht⟩ := List.exists_cons_of_ne_nil hne
  refine ⟨r, by rw [ht]; rfl, ?_, ?_⟩
  · have hmem : r ∈ sortByDate l := by
      rw [ht]
      exact List.mem_cons_self _ _
    exact (List.mem_insertionSort dateRel).mp hmem
  · intro a ha
    have ha' : a ∈ sortByDate l := (List.mem_insertionSort dateRel).mpr ha
    rw [ht] at ha'
    rcases List.mem_cons.mp ha' with rfl | ha'
    · exact le_refl _
    · have hs : List.Sorted dateRel (r :: t) := ht ▸ hsorted
      exact List.rel_of_sorted_cons hs a ha'

theorem sortByDate_filter_spec (p : ActionRec → Bool) (actions : List ActionRec)
    (hne : actions.filter p ≠ []) :
    ∃ r, (sortByDate (actions.filter p)).head? = some r ∧ r ∈ actions ∧ p r = true ∧
      ∀ a ∈ actions, p a = true → r.actionDate.data ≤ a.actionDate.data := by
  obtain ⟨r, hh, hm, hmin⟩ := sortByDate_head_min _ hne
  have hm' := List.mem_filter.mp hm
  exact ⟨r, hh, hm'.1, hm'.2,
    fun a ha hpa => hmin a (List.mem_filter.mpr ⟨ha, hpa⟩)⟩

theorem filter_nil_of_all_false {p : ActionRec → Bool} {l : List ActionRec}
    (h : ∀ a ∈ l, p a = false) : l.filter p = [] :=
  List.filter_eq_nil_iff.mpr fun a ha => by simp [h a ha]

theorem filter_ne_nil_of_exists {p : ActionRec → Bool} {l : List ActionRec}
    (h : ∃ a ∈ l, p a = true) : l.filter p ≠ [] := by
  obtain ⟨a, ha, hpa⟩ := h
  intro hnil
  exact (List.filter_eq_nil_iff.mp hnil) a ha (by simp [hpa])

theorem isEmpty_false_of_ne_nil {l : List ActionRec} (h : l ≠ []) :
    l.isEmpty = false := by
  cases hIE : l.isEmpty
  · rfl
  · exact absurd (List.isEmpty_iff.mp hIE) h

/-- The claim's branch contract at one priority level: the result is some
matching action of the history, earliest by date among the matchers. -/
def claimBranchHolds (p : ActionRec → Bool) (actions : List ActionRec)
    (res : Option ActionRec) : Bool :=
  match res with
  | none => false
  | some r => p r && actions.contains r &&
      actions.all fun a => !(p a) || decide (r.actionDate.data ≤ a.actionDate.data)

/-- C5 as the claim states it (no Floor/17000 level; earliest-by-date in
every branch, the keyword branch included): written from the claim's words to
be compared with the source function. -/
def claimC5Statement (actions : List ActionRec) : Bool :=
  if actions.any isPriorityIntro then
    claimBranchHolds isPriorityIntro actions (find_introduction_action actions)
  else if actions.any isIntroReferral then
    claimBranchHolds isIntroReferral actions (find_introduction_action actions)
  else if actions.any isIntroducedType then
    claimBranchHolds isIntroducedType actions (find_introduction_action actions)
  else if actions.any keywordIntroMatch then
    claimBranchHolds keywordIntroMatch actions (find_introduction_action actions)
  else find_introduction_action actions == none

/-- C5 counterexample: (i) with a history holding a `Floor`/17000 action and
an uncoded `IntroReferral` action, the claim demands the earliest
`IntroReferral` action but the code returns the `Floor` action; (ii) with a
history where only keywords match, the claim demands the earliest matcher but
the code returns the first matcher in list order, which is dated later. -/
theorem find_introduction_action_counterexample :
    claimC5Statement [⟨"Floor", "17000", "2025-01-02", "Submitted in the Senate"⟩,
      ⟨"IntroReferral", "", "2025-01-01", "Read twice"⟩] = false ∧
    claimC5Statement [⟨"BecameLaw", "", "2025-02-02", "Introduced in committee narrative"⟩,
      ⟨"Referral", "", "2025-01-01", "moved to committee"⟩] = false := by
  decide

/-- C5 amended: `find_introduction_action` selects, in order: the earliest
action typed `IntroReferral` with a known introduction code; else the
earliest `Floor` action with code 17000; else the earliest `IntroReferral`
action; else the earliest action typed `Introduced`/`Introduction`; else the
first (in history order, not by date) action whose type or text holds an
introduction keyword, and `none` when nothing matches. -/
theorem find_introduction_action_branches (actions : List ActionRec) :
    ((∃ a ∈ actions, isPriorityIntro a = true) →
      ∃ r, find_introduction_action actions = some r ∧ r ∈ actions ∧
        isPriorityIntro r = true ∧
        ∀ a ∈ actions, isPriorityIntro a = true →
          r.actionDate.data ≤ a.actionDate.data) ∧
    ((∀ a ∈ actions, isPriorityIntro a = false) →
      (∃ a ∈ actions, isFloorSenateRes a = true) →
      ∃ r, find_introduction_action actions = some r ∧ r ∈ actions ∧
        isFloorSenateRes r = true ∧
        ∀ a ∈ actions, isFloorSenateRes a = true →
          r.actionDate.data ≤ a.actionDate.data) ∧
    ((∀ a ∈ actions, isPriorityIntro a = false ∧ isFloorSenateRes a = false) →
      (∃ a ∈ actions, isIntroReferral a = true) →
      ∃ r, find_introduction_action actions = some r ∧ r ∈ actions ∧
        isIntroReferral r = true ∧
        ∀ a ∈ actions, isIntroReferral a = true →
          r.actionDate.data ≤ a.actionDate.data) ∧
    ((∀ a ∈ actions, isPriorityIntro a = false ∧ isFloorSenateRes a = false ∧
        isIntroReferral a = false) →
      (∃ a ∈ actions, isIntroducedType a = true) →
      ∃ r, find_introduction_action actions = some r ∧ r ∈ actions ∧
        isIntroducedType r = true ∧
        ∀ a ∈ actions, isIntroducedType a = true →
          r.actionDate.data ≤ a.actionDate.data) ∧
    ((∀ a ∈ actions, isPriorityIntro a = false ∧ isFloorSenateRes a = false ∧
        isIntroReferral a = false ∧ isIntroducedType a = false) →
      find_introduction_action actions = actions.find? keywordIntroMatch) := by
  refine ⟨?_, ?_, ?_, ?_, ?_⟩
  · intro h
    have hne := filter_ne_nil_of_exists h
    have hfind : find_introduction_action actions =
        (sortByDate (actions.filter isPriorityIntro)).head? := by
      rw [find_introduction_action]
      simp [isEmpty_false_of_ne_nil hne]
    rw [hfind]
    exact sortByDate_filter_spec _ _ hne
  · intro h1 h
    have hnil1 : actions.filter isPriorityIntro = [] := filter_nil_of_all_false h1
    have hne := filter_ne_nil_of_exists h
    have hfind : find_introduction_action actions =
        (sortByDate (actions.filter isFloorSenateRes)).head? := by
      rw [find_introduction_action]
      simp [hnil1, isEmpty_false_of_ne_nil hne]
    rw [hfind]
    exact sortByDate_filter_spec _ _ hne
  · intro h1 h
    have hnil1 : actions.filter isPriorityIntro = [] :=
      filter_nil_of_all_false fun a ha => (h1 a ha).1
    have hnil2 : actions.filter isFloorSenateRes = [] :=
      filter_nil_of_all_false fun a ha => (h1 a ha).2
    have hne := filter_ne_nil_of_exists h
    have hfind : find_introduction_action actions =
        (sortByDate (actions.filter isIntroReferral)).head? := by
      rw [find_introduction_action]
      simp [hnil1, hnil2, isEmpty_false_of_ne_nil hne]
    rw [hfind]
    exact sortByDate_filter_spec _ _ hne
  · intro h1 h
    have hnil1 : actions.filter isPriorityIntro = [] :=
      filter_nil_of_all_false fun a ha => (h1 a ha).1
    have hnil2 : actions.filter isFloorSenateRes = [] :=
      filter_nil_of_all_false fun a ha => (h1 a ha).2.1
    have hnil3 : actions.filter isIntroReferral = [] :=
      filter_nil_of_all_false fun a ha => (h1 a ha).2.2
    have hne := filter_ne_nil_of_exists h
    have hfind : find_introduction_action actions =
        (sortByDate (actions.filter isIntroducedType)).head? := by
      rw [find_introduction_action]
      simp [hnil1, hnil2, hnil3, isEmpty_false_of_ne_nil hne]
    rw [hfind]
    exact sortByDate_filter_spec _ _ hne
  · intro h1
    have hnil1 : actions.filter isPriorityIntro = [] :=
      filter_nil_of_all_false fun a ha => (h1 a ha).1
    have hnil2 : actions.filter isFloorSenateRes = [] :=
      filter_nil_of_all_false fun a ha => (h1 a ha).2.1
    have hnil3 : actions.filter isIntroReferral = [] :=
      filter_nil_of_all_false fun a ha => (h1 a ha).2.2.1
    have hnil4 : actions.filter isIntroducedType = [] :=
      filter_nil_of_all_false fun a ha => (h1 a ha).2.2.2
    rw [find_introduction_action]
    simp [hnil1, hnil2, hnil3, hnil4]

/-- C5 witness: on the one-action history holding the spec's scenario action
(`IntroReferral`, code 1000), the first branch of the amended theorem returns
exactly that action. -/
theorem find_introduction_action_branches_witness :
    find_introduction_action
        [⟨"IntroReferral", "1000", "2025-01-05", "Referred to Committee"⟩] =
      some ⟨"IntroReferral", "1000", "2025-01-05", "Referred to Committee"⟩ := by
  obtain ⟨r, hr, hmem, -, -⟩ :=
    (find_introduction_action_branches
      [⟨"IntroReferral", "1000", "2025-01-05", "Referred to Committee"⟩]).1
      ⟨⟨"IntroReferral", "1000", "2025-01-05", "Referred to Committee"⟩,
        List.mem_cons_self _ _, by decide⟩
  rw [hr, List.mem_singleton.mp hmem]

/-! ## Per-bill detail fetch

`get_bill_details` (src/congress_x/monitor.py, lines 352–376) makes one
HTTP request; the embedding is parameterized by that request's outcome.
On a 2xx response it returns `data.get("bill", {})`; every raised exception
— `raise_for_status` on 404, `raise_for_status` on 5xx, or a network
timeout — lands in the single `except` clause, which returns `{}`. -/

/-- The detail payload carried when the request succeeds and the JSON holds a
`bill` entry. -/
structure BillDetail where
  title : String
  deriving DecidableEq

/-- Outcome of the single `requests.get` call. -/
inductive FetchOutcome where
  | ok (bill : Option BillDetail)
  | notFound
  | serverError
  | timeout
  deriving DecidableEq

/-- Embedding of `get_bill_details` (lines 352–376): the empty dictionary result is
`none`. -/
def get_bill_details : FetchOutcome → Option BillDetail
  | .ok b => b
  | .notFound => none
  | .serverError => none
  | .timeout => none

/-- C6 counterexample: a 404 outcome and a 5xx/timeout outcome produce the
identical empty result — the expected-absent case is not distinguished from
transient fetch errors, and the single `requests.get` per call leaves no
retry to observe. -/
theorem get_bill_details_counterexample :
    get_bill_details .notFound = get_bill_details .serverError ∧
    get_bill_details .notFound = get_bill_details .timeout ∧
    get_bill_details .notFound = none := by
  exact ⟨rfl, rfl, rfl⟩

/-- C6 amended: `get_bill_details` returns the empty result on a 404-
equivalent response as a non-error outcome, and returns that same empty
result on network/5xx/timeout failures; the one embedded request is the only
attempt — no retry, no backoff — and the caller skips the candidate for the
cycle whenever the result is empty. -/
theorem get_bill_details_uniform_failure :
    (∀ b, get_bill_details (.ok b) = b) ∧
    get_bill_details .notFound = none ∧
    get_bill_details .serverError = none ∧
    get_bill_details .timeout = none := by
  exact ⟨fun _ => rfl, rfl, rfl, rfl⟩

/-! ## Building one post's text

`XPoster.build_x_post_text`
(src/congress_x_post_processor/x_poster.py, lines 92–126).  Python slicing
`s[:k]` is embedded with its negative-index semantics; the arithmetic runs
over the integers as in Python. -/

/-- Python `s[:k]`: the first `k` characters when `k ≥ 0`, everything but the
last `-k` characters when `k < 0`. -/
def pySlice (s : String) (k : Int) : String :=
  String.mk (s.data.take (if 0 ≤ k then k.toNat else ((s.data.length : Int) + k).toNat))

/-- Embedding of `build_x_post_text` (lines 92–126). -/
def build_x_post_text (bill_number date_introduced sponsor summary link : String) :
    String :=
  let text := "Bill Number: " ++ bill_number ++ "\n" ++ "Date Introduced: " ++
    date_introduced ++ "\n" ++ "Sponsor: " ++ sponsor ++ "\n" ++ "Summary: " ++
    summary ++ "\n" ++ "Link: " ++ link
  if 280 < text.length then
    let base_text := "Bill Number: " ++ bill_number ++ "\nDate Introduced: " ++
      date_introduced ++ "\nSponsor: " ++ sponsor ++ "\nSummary: \nLink: " ++ link
    let base_length : Int := base_text.length
    let available_for_summary : Int := 280 - base_length - 10
    if 20 < available_for_summary then
      "Bill Number: " ++ bill_number ++ "\nDate Introduced: " ++ date_introduced ++
        "\nSponsor: " ++ sponsor ++ "\nSummary: " ++
        (pySlice summary (available_for_summary - 3) ++ "...") ++ "\nLink: " ++ link
    else
      let max_summary : Int := 280 - base_length + (summary.length : Int) - 20
      if 10 < max_summary then
        "Bill Number: " ++ bill_number ++ "\nDate Introduced: " ++ date_introduced ++
          "\nSponsor: " ++ sponsor ++ "\nSummary: " ++
          (pySlice summary (max_summary - 3) ++ "...") ++ "\nLink: " ++ link
      else
        pySlice text 277 ++ "..."
  else text

set_option maxRecDepth 4096 in
/-- C8: at the concrete input below — a 180-character link making the
summary-free base text 253 characters, with a 100-character summary — the
truncation path computes `max_summary = 107`, keeps the whole summary, and
returns a 356-character post, exceeding the 280-character publisher limit the
code's own truncation logic is written to enforce. -/
theorem build_x_post_text_exceeds_280 :
    280 < (build_x_post_text "HR.1" "2025-01-02" "X"
      (String.mk (List.replicate 100 's'))
      (String.mk (List.replicate 180 'l'))).length ∧
    (build_x_post_text "HR.1" "2025-01-02" "X"
      (String.mk (List.replicate 100 's'))
      (String.mk (List.replicate 180 'l'))).length = 356 := by
  decide

/-! ## Batch ordering of `fetch_recent_bills`

The sort-and-truncate stage of `fetch_recent_bills`
(src/congress_x/monitor.py, lines 312–344), taking the collected candidate
list as input.  Candidates are constructed in the scan loops with
`number = str(bill_num)` for an integer `bill_num`, so the numeric sort key
`int(b.get("bill_number", 0))` is total on them and the bill number is
carried as a natural number.  Python `list.sort` is stable and is embedded as
insertion sort by the corresponding non-strict key orders. -/

/-- The fields the sort stage reads from one candidate dictionary. -/
structure ScanBill where
  billType : String
  billNumber : Nat
  deriving DecidableEq

/-- The split test of line 318: `bill.get("bill_type", "").upper() == "HR"`. -/
def isHRBill (b : ScanBill) : Bool := pyUpper b.billType == "HR"

/-- The HR sort of line 325: by number, descending (`reverse=True`). -/
def hrRel (a b : ScanBill) : Prop := b.billNumber ≤ a.billNumber

instance : DecidableRel hrRel := fun a b =>
  inferInstanceAs (Decidable (b.billNumber ≤ a.billNumber))

instance : IsTotal ScanBill hrRel := ⟨fun a b => (le_total b.billNumber a.billNumber)⟩

instance : IsTrans ScanBill hrRel := ⟨fun _ _ _ h1 h2 => le_trans h2 h1⟩

/-- The other-bills sort key of line 331: the pair
`(b.get("bill_type", ""), -int(b.get("bill_number", 0)))` compared as Python
tuples — type ascending (string order), then number descending. -/
def otherRel (a b : ScanBill) : Prop :=
  a.billType.data < b.billType.data ∨
    (a.billType.data = b.billType.data ∧ b.billNumber ≤ a.billNumber)

instance : DecidableRel otherRel := fun a b => by
  unfold otherRel
  infer_instance

instance : IsTotal ScanBill otherRel := by
  refine ⟨fun a b => ?_⟩
  rcases lt_trichotomy a.billType.data b.billType.data with h | h | h
  · exact Or.inl (Or.inl h)
  · rcases le_total b.billNumber a.billNumber with hn | hn
    · exact Or.inl (Or.inr ⟨h, hn⟩)
    · exact Or.inr (Or.inr ⟨h.symm, hn⟩)
  · exact Or.inr (Or.inl h)

instance : IsTrans ScanBill otherRel := by
  refine ⟨fun a b c h1 h2 => ?_⟩
  rcases h1 with h1 | ⟨e1, n1⟩
  · rcases h2 with h2 | ⟨e2, n2⟩
    · exact Or.inl (lt_trans h1 h2)
    · exact Or.inl (e2 ▸ h1)
  · rcases h2 with h2 | ⟨e2, n2⟩
    · exact Or.inl (e1 ▸ h2)
    · exact Or.inr ⟨e1.trans e2, le_trans n2 n1⟩

/-- The sort-and-truncate stage of `fetch_recent_bills` (lines 312–344):
HR bills sorted by number descending, then the other bills sorted by
(type ascending, number descending), truncated to `limit`. -/
def fetch_recent_bills_batch (all_bills : List ScanBill) (limit : Nat) :
    List ScanBill :=
  (List.insertionSort hrRel (all_bills.filter isHRBill) ++
    List.insertionSort otherRel (all_bills.filter fun b => !isHRBill b)).take limit

/-- The documented tie-break of the claim: HR bills precede all others and
are ordered by descending number; non-HR bills are mutually ordered by type
name ascending, then number descending. -/
def claimTieBreak (a b : ScanBill) : Prop :=
  (isHRBill a = true ∧ isHRBill b = true ∧ b.billNumber ≤ a.billNumber) ∨
  (isHRBill a = true ∧ isHRBill b = false) ∨
  (isHRBill a = false ∧ isHRBill b = false ∧
    (a.billType.data < b.billType.data ∨
      (a.billType.data = b.billType.data ∧ b.billNumber ≤ a.billNumber)))

theorem not_starts_S_of_isHR (b : ScanBill) (h : isHRBill b = true) :
    startsWithL b.billType.data ['S'] = false := by
  have hup : pyUpper b.billType = "HR" := by
    simpa [isHRBill] using h
  have hdata : b.billType.data.map Char.toUpper = ['H', 'R'] := by
    have := congrArg String.data hup
    simpa [pyUpper] using this
  cases hd : b.billType.data with
  | nil =>
      rw [hd] at hdata
      cases hdata
  | cons c t =>
      rw [hd] at hdata
      simp only [List.map_cons, List.cons.injEq] at hdata
      by_cases hcs : c = 'S'
      · exact absurd (hcs ▸ hdata.1) (by decide)
      · simp [startsWithL, hcs]

theorem starts_S_head {l : List Char} (h : startsWithL l ['S'] = true) :
    ∃ t, l = 'S' :: t := by
  cases l with
  | nil => cases h
  | cons x t =>
      simp only [startsWithL, Bool.and_eq_true, beq_iff_eq] at h
      exact ⟨t, by rw [h.1]⟩

theorem starts_H_head {l : List Char} (h : startsWithL l ['H'] = true) :
    ∃ t, l = 'H' :: t := by
  cases l with
  | nil => cases h
  | cons x t =>
      simp only [startsWithL, Bool.and_eq_true, beq_iff_eq] at h
      exact ⟨t, by rw [h.1]⟩

/-- C9: the batch produced by the sort stage of `fetch_recent_bills` holds at
most `limit` candidates, all drawn from the input, pairwise ordered by the
documented tie-break (HR first by descending number, then the remaining types
ascending by type name with numbers descending inside a type), and in
particular no senate-type bill (type starting with S) ever precedes a
house-type bill (type starting with H). -/
theorem fetch_recent_bills_batch_ordered (all_bills : List ScanBill) (limit : Nat) :
    (fetch_recent_bills_batch all_bills limit).length ≤ limit ∧
    (∀ b ∈ fetch_recent_bills_batch all_bills limit, b ∈ all_bills) ∧
    List.Pairwise claimTieBreak (fetch_recent_bills_batch all_bills limit) ∧
    List.Pairwise (fun a b => ¬(startsWithL a.billType.data ['S'] = true ∧
      startsWithL b.billType.data ['H'] = true))
      (fetch_recent_bills_batch all_bills limit) := by
  have hmemHR : ∀ x ∈ List.insertionSort hrRel (all_bills.filter isHRBill),
      x ∈ all_bills ∧ isHRBill x = true := by
    intro x hx
    have := (List.mem_insertionSort hrRel).mp hx
    exact ⟨(List.mem_filter.mp this).1, (List.mem_filter.mp this).2⟩
  have hmemO : ∀ x ∈ List.insertionSort otherRel (all_bills.filter fun b => !isHRBill b),
      x ∈ all_bills ∧ isHRBill x = false := by
    intro x hx
    have := (List.mem_insertionSort otherRel).mp hx
    refine ⟨(List.mem_filter.mp this).1, ?_⟩
    have h2 := (List.mem_filter.mp this).2
    simpa using h2
  have hPW : List.Pairwise claimTieBreak
      (List.insertionSort hrRel (all_bills.filter isHRBill) ++
        List.insertionSort otherRel (all_bills.filter fun b => !isHRBill b)) := by
    rw [List.pairwise_append]
    refine ⟨?_, ?_, ?_⟩
    · refine List.Pairwise.imp_of_mem ?_
        (List.sorted_insertionSort hrRel (all_bills.filter isHRBill))
      intro a b ha hb hr
      exact Or.inl ⟨(hmemHR a ha).2, (hmemHR b hb).2, hr⟩
    · refine List.Pairwise.imp_of_mem ?_
        (List.sorted_insertionSort otherRel (all_bills.filter fun b => !isHRBill b))
      intro a b ha hb hr
      exact Or.inr (Or.inr ⟨(hmemO a ha).2, (hmemO b hb).2, hr⟩)
    · intro a ha b hb
      exact Or.inr (Or.inl ⟨(hmemHR a ha).2, (hmemO b hb).2⟩)
  have hSH : ∀ a b : ScanBill, claimTieBreak a b →
      ¬(startsWithL a.billType.data ['S'] = true ∧
        startsWithL b.billType.data ['H'] = true) := by
    rintro a b hab ⟨hS, hH⟩
    rcases hab with ⟨hA, -, -⟩ | ⟨hA, -⟩ | ⟨-, -, hlt | ⟨heq, -⟩⟩
    · rw [not_starts_S_of_isHR a hA] at hS
      cases hS
    · rw [not_starts_S_of_isHR a hA] at hS
      cases hS
    · obtain ⟨t1, e1⟩ := starts_S_head hS
      obtain ⟨t2, e2⟩ := starts_H_head hH
      rw [e1, e2] at hlt
      cases hlt with
      | rel h => exact absurd h (by decide)
    · obtain ⟨t1, e1⟩ := starts_S_head hS
      obtain ⟨t2, e2⟩ := starts_H_head hH
      rw [e1, e2] at heq
      exact absurd (List.head_eq_of_cons_eq heq) (by decide)
  refine ⟨?_, ?_, ?_, ?_⟩
  · exact List.length_take_le _ _
  · intro b hb
    have := (List.take_sublist _ _).subset hb
    rcases List.mem_append.mp this with h | h
    · exact (hmemHR b h).1
    · exact (hmemO b h).1
  · exact List.Pairwise.sublist (List.take_sublist _ _) hPW
  · exact List.Pairwise.sublist (List.take_sublist _ _)
      (hPW.imp_of_mem fun ha hb h => hSH _ _ h)
